import Mathlib

/-!
Shallow embedding of `LokiSecretsMetadataStore` (src/unnamed/part_000), the
LokiJS-backed secrets metadata store of the volt repository, together with the
Loki collection operations the store invokes (`findOne`, `update`, `insert`,
`getCollection` / `addCollection`, `loadDatabase` / `saveDatabase`) and the
file-system effects (`stat`, `rimraf`) that `init` and `clean` perform.

Secret version payloads (`Models.SecretBundle`) are opaque to the store: the
code only stores them and pushes them onto a record's `versions` array, so the
embedding abstracts them as a type parameter `α`.
-/

namespace Volt

/-- A document of the `$SECRETS_COLLECTION$` collection: one secret record.
The code touches `secretName` (the unique key it queries by) and `versions`
(the array it pushes new bundles onto); `deleted` is the tombstone flag of the
data model, which the code never reads or writes. -/
structure SecretDoc (α : Type) where
  secretName : String
  versions : List α
  deleted : Bool
  deriving DecidableEq

/-- The error outcomes observable from the embedded operations. `typeError` is
the JavaScript TypeError raised by `coll.update(null)`; `updateUnsynced` is
Loki's error for updating a document that is not in the collection;
`notImplemented` is `new Error("Method not implemented.")`; `illegalState` is
the `Cannot clean LokiSecretsMetadataStore, it's not closed.` error; the
remaining constructors name the spec's error taxonomy (section 7). -/
inductive StoreError
  | typeError
  | updateUnsynced
  | notImplemented
  | illegalState
  | duplicateKey
  | notFound
  | conflict
  deriving DecidableEq

/-- A Loki collection as used by the store: its list of documents in insertion
order, plus whether it was created with the `unique: ["secretName"]`
constraint. -/
structure Collection (α : Type) where
  uniqueNames : Bool
  docs : List (SecretDoc α)
  deriving DecidableEq

/-- Loki `coll.findOne({ secretName })`: first document whose `secretName`
matches. -/
def Collection.findOne (c : Collection α) (name : String) : Option (SecretDoc α) :=
  c.docs.find? (fun d => d.secretName == name)

/-- Loki `coll.update(doc)`. On `null` (the value `setSecret` passes when no
record was found) JavaScript raises a TypeError before anything happens; on a
document not present in the collection Loki raises its unsynced-document
error; otherwise the stored document is replaced and the document returned. -/
def Collection.update (c : Collection α) :
    Option (SecretDoc α) → Except StoreError (Collection α × SecretDoc α)
  | none => .error .typeError
  | some doc =>
      if c.docs.any (fun e => e.secretName == doc.secretName) then
        .ok ({ c with
                docs := c.docs.map fun e =>
                  if e.secretName == doc.secretName then doc else e },
              doc)
      else
        .error .updateUnsynced

/-- Loki `coll.insert(doc)` on a collection declared with
`unique: ["secretName"]`: inserting a second document under an existing
`secretName` violates the unique index and fails; otherwise the document is
appended. -/
def Collection.insert (c : Collection α) (d : SecretDoc α) :
    Except StoreError (Collection α) :=
  if c.uniqueNames && c.docs.any (fun e => e.secretName == d.secretName) then
    .error .duplicateKey
  else
    .ok { c with docs := c.docs ++ [d] }

/-- The Loki database. The store only ever uses the single
`$SECRETS_COLLECTION$` collection, so the database is that collection or
`none` before `addCollection` has created it (`getCollection` returns `null`
then). -/
structure LokiDB (α : Type) where
  secretsColl : Option (Collection α)
  deriving DecidableEq

/-- The backing store at `lokiDBPath`: `none` when the file does not exist
(`stat` fails), `some db` when it holds a persisted database. -/
structure DiskState (α : Type) where
  file : Option (LokiDB α)
  deriving DecidableEq

/-- The store instance: its in-memory Loki database and the
`initialized` / `closed` lifecycle flags. -/
structure LokiSecretsMetadataStore (α : Type) where
  db : LokiDB α
  initialized : Bool
  closed : Bool
  deriving DecidableEq

namespace LokiSecretsMetadataStore

/-- The constructor: a fresh Loki database (no collections yet),
`initialized = false`, `closed = true` (the field initializers at the top of
the class). -/
def new : LokiSecretsMetadataStore α :=
  { db := ⟨none⟩, initialized := false, closed := true }

/-- `isInitialized()`. -/
def isInitialized (s : LokiSecretsMetadataStore α) : Bool :=
  s.initialized

/-- `isClosed()`. -/
def isClosed (s : LokiSecretsMetadataStore α) : Bool :=
  s.closed

/-- `init()`: if the backing file exists, `loadDatabase` replaces the
in-memory database with its contents (a missing file is ignored); then the
secrets collection is created with `unique: ["secretName"]` if
`getCollection` returned `null`; then `saveDatabase` persists the database;
finally `initialized := true`, `closed := false`. -/
def init (s : LokiSecretsMetadataStore α) (disk : DiskState α) :
    LokiSecretsMetadataStore α × DiskState α :=
  let db1 : LokiDB α :=
    match disk.file with
    | some dbOnDisk => dbOnDisk
    | none => s.db
  let db2 : LokiDB α :=
    match db1.secretsColl with
    | some _ => db1
    | none => ⟨some { uniqueNames := true, docs := [] }⟩
  ({ db := db2, initialized := true, closed := false }, ⟨some db2⟩)

/-- `close()`: Loki flushes the database to disk and the store records
`closed := true`. -/
def close (s : LokiSecretsMetadataStore α) (_disk : DiskState α) :
    LokiSecretsMetadataStore α × DiskState α :=
  ({ s with closed := true }, ⟨some s.db⟩)

/-- `clean()`: when `isClosed()` the backing file is removed (`rimraf`) and
the call returns; otherwise it throws without touching the disk. -/
def clean (s : LokiSecretsMetadataStore α) (disk : DiskState α) :
    Except StoreError Unit × DiskState α :=
  if s.isClosed then
    (.ok (), ⟨none⟩)
  else
    (.error .illegalState, disk)

/-- `setSecret(context, secretName, secretBundle)`: look up the record via
`findOne`; when a document was found, push the bundle onto its `versions`
array; then return `coll.update(secretDoc)` — which raises a TypeError when
`secretDoc` is `null`, i.e. when no record with that name existed. -/
def setSecret (s : LokiSecretsMetadataStore α) (secretName : String)
    (secretBundle : α) :
    Except StoreError (LokiSecretsMetadataStore α × SecretDoc α) :=
  match s.db.secretsColl with
  | none => .error .typeError
  | some coll =>
    let secretDoc := coll.findOne secretName
    let pushed := secretDoc.map
      (fun d => { d with versions := d.versions ++ [secretBundle] })
    match coll.update pushed with
    | .error e => .error e
    | .ok (coll2, doc) => .ok ({ s with db := ⟨some coll2⟩ }, doc)

/-- `deleteSecret`: the body is `throw new Error("Method not implemented.")`. -/
def deleteSecret (_s : LokiSecretsMetadataStore α) (_secretName : String) :
    Except StoreError (SecretDoc α) :=
  .error .notImplemented

/-- `updateSecret`: the body is `throw new Error("Method not implemented.")`. -/
def updateSecret (_s : LokiSecretsMetadataStore α) (_secretName : String)
    (_secretVersion : String) :
    Except StoreError (SecretDoc α) :=
  .error .notImplemented

/-- `getSecret`: the body is `throw new Error("Method not implemented.")`.
The version argument is optional in the `ISecretsMetadataStore` interface. -/
def getSecret (_s : LokiSecretsMetadataStore α) (_secretName : String)
    (_secretVersion : Option String) :
    Except StoreError α :=
  .error .notImplemented

/-- `getSecrets`: the body is `throw new Error("Method not implemented.")`. -/
def getSecrets (_s : LokiSecretsMetadataStore α) (_maxResults : Nat)
    (_marker : String) :
    Except StoreError (List (SecretDoc α) × Option String) :=
  .error .notImplemented

/-- `getSecretVersions`: the body is
`throw new Error("Method not implemented.")`. -/
def getSecretVersions (_s : LokiSecretsMetadataStore α) (_secretName : String)
    (_maxResults : Nat) (_marker : String) :
    Except StoreError (List α × Option String) :=
  .error .notImplemented

end LokiSecretsMetadataStore

open LokiSecretsMetadataStore

/-- A store in the initialized state whose collection holds exactly the given
documents: the shape a store has after `init` and a series of successful
operations. Used to evaluate the operations at concrete inputs. -/
def storeWith (docs : List (SecretDoc α)) : LokiSecretsMetadataStore α :=
  { db := ⟨some { uniqueNames := true, docs := docs }⟩,
    initialized := true, closed := false }

/-- When `findOne` locates a document `d` under `name`, `setSecret` pushes the
bundle onto `d.versions`, replaces the stored document, and returns the
updated document (the result of `coll.update`). -/
lemma setSecret_found {α : Type} (s : LokiSecretsMetadataStore α)
    (coll : Collection α) (name : String) (d : SecretDoc α) (b : α)
    (hc : s.db.secretsColl = some coll)
    (hfind : coll.findOne name = some d) :
    setSecret s name b =
      .ok ({ s with db := ⟨some { coll with docs := coll.docs.map fun e =>
              if e.secretName == name then
                { d with versions := d.versions ++ [b] } else e }⟩ },
           { d with versions := d.versions ++ [b] }) := by
  have hfind' : coll.docs.find? (fun e => e.secretName == name) = some d := hfind
  have hdname : d.secretName = name := by
    simpa using List.find?_some hfind'
  have hmem : d ∈ coll.docs := List.mem_of_find?_eq_some hfind'
  have hany : coll.docs.any (fun e => e.secretName == name) = true :=
    List.any_eq_true.mpr ⟨d, hmem, by simp [hdname]⟩
  simp [setSecret, hc, hfind, Collection.update, hdname, hany]

/-- After replacing every document stored under `name` by `dNew`, `find?` by
`name` yields `dNew`, provided some document was stored under `name`. -/
lemma find?_map_replace {α : Type} (docs : List (SecretDoc α)) (name : String)
    (dNew : SecretDoc α)
    (hsome : (docs.find? (fun e => e.secretName == name)).isSome = true)
    (hd : dNew.secretName = name) :
    (docs.map fun e => if e.secretName == name then dNew else e).find?
      (fun e => e.secretName == name) = some dNew := by
  induction docs with
  | nil => simp at hsome
  | cons a as ih =>
    by_cases h : a.secretName = name
    · have hfa : (if a.secretName == name then dNew else a) = dNew := by
        simp [h]
      rw [List.map_cons, hfa, List.find?_cons]
      simp [hd]
    · have hb : (a.secretName == name) = false := by simp [h]
      have hfa : (if a.secretName == name then dNew else a) = a := by
        simp [hb]
      rw [List.map_cons, hfa, List.find?_cons]
      have hsome' : (as.find? (fun e => e.secretName == name)).isSome = true := by
        rw [List.find?_cons] at hsome
        simpa [hb] using hsome
      simp only [hb]
      exact ih hsome'

/-- Replacing the documents stored under `name` leaves every document with a
different name in place. -/
lemma mem_map_replace_of_ne {α : Type} {docs : List (SecretDoc α)}
    {name : String} {dNew e : SecretDoc α} (he : e ∈ docs)
    (hne : e.secretName ≠ name) :
    e ∈ docs.map fun x => if x.secretName == name then dNew else x :=
  List.mem_map.mpr ⟨e, he, by simp [hne]⟩

/-- C1: refuted on the code. The claim says `setSecret` on a name with no
existing record creates a one-version `SecretRecord` and returns the created
version, but the code guards the push with `if (secretDoc)` and then calls
`coll.update(secretDoc)` with `secretDoc` still `null`: nothing is created
and the call fails with a TypeError. Evaluated on a freshly initialized empty
store. -/
theorem setSecret_absent_record_uncreated :
    setSecret (init (new : LokiSecretsMetadataStore Nat) ⟨none⟩).1 "a" 0 =
      .error .typeError :=
  rfl

/-- C2: refuted on the code. `getSecret` and `getSecretVersions` are stubs
that always fail with "Method not implemented.", so the claimed
`setSecret; setSecret; getSecret / getSecretVersions` round trip cannot hold;
moreover the first `setSecret` on the absent name already fails instead of
creating the record. Evaluated on a fresh store and on a store holding the
record the scenario would have produced. -/
theorem secret_roundtrip_unimplemented :
    setSecret (init (new : LokiSecretsMetadataStore Nat) ⟨none⟩).1 "n" 1 =
      .error .typeError ∧
    getSecret (storeWith [(⟨"n", [1, 2], false⟩ : SecretDoc Nat)]) "n" none =
      .error .notImplemented ∧
    getSecretVersions (storeWith [(⟨"n", [1, 2], false⟩ : SecretDoc Nat)])
      "n" 25 "" = .error .notImplemented :=
  ⟨rfl, rfl, rfl⟩

/-- C3: for a store whose collection holds a non-deleted record `d` under
`name`, `setSecret` appends the bundle at the end of `d.versions`: the stored
record afterwards has exactly `d.versions ++ [b]` (prior history in place, in
creation order), that list is non-empty, and records under other names are
untouched. -/
theorem setSecret_appends_active {α : Type} (s : LokiSecretsMetadataStore α)
    (coll : Collection α) (name : String) (d : SecretDoc α) (b : α)
    (hc : s.db.secretsColl = some coll)
    (hfind : coll.findOne name = some d)
    (hactive : d.deleted = false) :
    ∃ s' coll',
      setSecret s name b = .ok (s', { d with versions := d.versions ++ [b] }) ∧
      s'.db.secretsColl = some coll' ∧
      coll'.findOne name = some { d with versions := d.versions ++ [b] } ∧
      d.versions ++ [b] ≠ [] ∧
      (∀ e ∈ coll.docs, e.secretName ≠ name → e ∈ coll'.docs) := by
  have hdname : d.secretName = name := by
    simpa using List.find?_some
      (hfind : coll.docs.find? (fun e => e.secretName == name) = some d)
  refine ⟨_, _, setSecret_found s coll name d b hc hfind, rfl, ?_, by simp, ?_⟩
  · exact find?_map_replace coll.docs name
      { d with versions := d.versions ++ [b] }
      (by rw [show coll.docs.find? (fun e => e.secretName == name) = some d
          from hfind]; rfl)
      hdname
  · intro e he hne
    exact mem_map_replace_of_ne he hne

/-- An example active one-version record and its collection, used to
instantiate the universally quantified theorems at concrete inputs. -/
def aDoc : SecretDoc Nat := ⟨"a", [0], false⟩

/-- The collection holding exactly `aDoc`. -/
def aColl : Collection Nat := { uniqueNames := true, docs := [aDoc] }

/-- An example tombstoned record and its collection. -/
def tDoc : SecretDoc Nat := ⟨"t", [5], true⟩

/-- The collection holding exactly `tDoc`. -/
def tColl : Collection Nat := { uniqueNames := true, docs := [tDoc] }

/-- Witness for C3 at a concrete one-record active store. -/
theorem setSecret_appends_active_witness :
    aDoc.deleted = false ∧
    ∃ s' coll',
      setSecret (storeWith [aDoc]) "a" 1 = .ok (s', ⟨"a", [0, 1], false⟩) ∧
      s'.db.secretsColl = some coll' ∧
      coll'.findOne "a" = some ⟨"a", [0, 1], false⟩ ∧
      ([0, 1] : List Nat) ≠ [] ∧
      (∀ e ∈ aColl.docs, e.secretName ≠ "a" → e ∈ coll'.docs) :=
  ⟨rfl, setSecret_appends_active (storeWith [aDoc]) aColl "a" aDoc 1
    rfl (by decide) rfl⟩

/-- C4: refuted on the code. `getSecret` is a stub that fails with
"Method not implemented." in every case the claim distinguishes — active
record, absent record, tombstoned record — never returning the last version
and never failing `NotFound`. -/
theorem getSecret_unimplemented :
    getSecret (storeWith [(⟨"a", [0, 1], false⟩ : SecretDoc Nat)]) "a" none =
      .error .notImplemented ∧
    getSecret (storeWith ([] : List (SecretDoc Nat))) "a" none =
      .error .notImplemented ∧
    getSecret (storeWith [(⟨"a", [0, 1], true⟩ : SecretDoc Nat)]) "a" none =
      .error .notImplemented ∧
    StoreError.notImplemented ≠ StoreError.notFound :=
  ⟨rfl, rfl, rfl, by decide⟩

/-- C5: refuted on the code. `deleteSecret` is a stub that always fails with
"Method not implemented." — on a never-created name, on an already-tombstoned
record and on an active record alike; it neither fails `NotFound` nor
tombstones anything. -/
theorem deleteSecret_unimplemented :
    deleteSecret (storeWith ([] : List (SecretDoc Nat))) "never" =
      .error .notImplemented ∧
    deleteSecret (storeWith [(⟨"a", [0], true⟩ : SecretDoc Nat)]) "a" =
      .error .notImplemented ∧
    deleteSecret (storeWith [(⟨"a", [0], false⟩ : SecretDoc Nat)]) "a" =
      .error .notImplemented ∧
    StoreError.notImplemented ≠ StoreError.notFound :=
  ⟨rfl, rfl, rfl, by decide⟩

/-- C6: refuted on the code. `getSecrets` is a stub that always fails with
"Method not implemented."; evaluated on the five-secret store of the claim's
example with page size 2 and empty marker. -/
theorem getSecrets_unimplemented :
    getSecrets (storeWith [(⟨"a", [0], false⟩ : SecretDoc Nat),
        ⟨"b", [0], false⟩, ⟨"c", [0], false⟩, ⟨"d", [0], false⟩,
        ⟨"e", [0], false⟩]) 2 "" =
      .error .notImplemented :=
  rfl

/-- C7: `clean` on a store that is not closed fails with the illegal-state
error and leaves the backing file untouched; on a closed store it removes
the backing file, and `init` of a fresh instance against the now-absent file
yields an empty collection. -/
theorem clean_only_when_closed {α : Type} (s : LokiSecretsMetadataStore α)
    (disk : DiskState α) :
    (s.isClosed = false → clean s disk = (.error .illegalState, disk)) ∧
    (s.isClosed = true →
      clean s disk = (.ok (), ⟨none⟩) ∧
      (init (new : LokiSecretsMetadataStore α) ⟨none⟩).1.db.secretsColl =
        some { uniqueNames := true, docs := [] }) := by
  constructor
  · intro h
    simp [clean, h]
  · intro h
    exact ⟨by simp [clean, h], rfl⟩

/-- Witness for C7: an open store (rejected) and a closed store (cleaned). -/
theorem clean_only_when_closed_witness :
    clean (storeWith ([] : List (SecretDoc Nat))) ⟨some ⟨none⟩⟩ =
      (.error .illegalState, ⟨some ⟨none⟩⟩) ∧
    clean (new : LokiSecretsMetadataStore Nat) ⟨some ⟨none⟩⟩ =
      (.ok (), ⟨none⟩) :=
  ⟨(clean_only_when_closed (storeWith []) ⟨some ⟨none⟩⟩).1 rfl,
   ((clean_only_when_closed new ⟨some ⟨none⟩⟩).2 rfl).1⟩

/-- C8: `init` leaves the store initialized and not closed, persists the
resulting database to the backing file, keeps a collection loaded from an
existing file, creates the collection with the `secretName` uniqueness
constraint when starting fresh, and that constraint makes a second insert
under an existing name fail with `DuplicateKey`. -/
theorem init_establishes_state {α : Type} (s : LokiSecretsMetadataStore α)
    (disk : DiskState α) :
    (init s disk).1.isInitialized = true ∧
    (init s disk).1.isClosed = false ∧
    (init s disk).2.file = some (init s disk).1.db ∧
    (∀ db0 c, disk.file = some db0 → db0.secretsColl = some c →
      (init s disk).1.db.secretsColl = some c) ∧
    (disk.file = none → s.db.secretsColl = none →
      (init s disk).1.db.secretsColl =
        some { uniqueNames := true, docs := [] }) ∧
    (∀ d₁ d₂ : SecretDoc α, ∀ c' : Collection α,
      d₁.secretName = d₂.secretName →
      Collection.insert { uniqueNames := true, docs := [] } d₁ = .ok c' →
      c'.insert d₂ = .error .duplicateKey) := by
  refine ⟨rfl, rfl, rfl, ?_, ?_, ?_⟩
  · intro db0 c h1 h2
    simp [init, h1, h2]
  · intro h1 h2
    simp [init, h1, h2]
  · intro d₁ d₂ c' hname hins
    have hc' : c' = { uniqueNames := true, docs := [d₁] } := by
      simpa [Collection.insert] using hins.symm
    subst hc'
    simp [Collection.insert, hname]

/-- Witness for C8: `init` of a fresh store on an absent file creates the
empty unique collection, and inserting two docs named "a" into it fails with
`DuplicateKey` on the second. -/
theorem init_establishes_state_witness :
    (init (new : LokiSecretsMetadataStore Nat) ⟨none⟩).1.db.secretsColl =
      some { uniqueNames := true, docs := [] } ∧
    Collection.insert
      { uniqueNames := true, docs := [(⟨"a", [0], false⟩ : SecretDoc Nat)] }
      ⟨"a", [1], false⟩ = .error .duplicateKey :=
  ⟨(init_establishes_state (new : LokiSecretsMetadataStore Nat) ⟨none⟩).2.2.2.2.1
      rfl rfl,
   (init_establishes_state (new : LokiSecretsMetadataStore Nat) ⟨none⟩).2.2.2.2.2
      ⟨"a", [0], false⟩ ⟨"a", [1], false⟩
      { uniqueNames := true, docs := [⟨"a", [0], false⟩] } rfl rfl⟩

/-- C9: a freshly constructed store has `isClosed() = true` and
`isInitialized() = false`, so `clean` on it takes the closed branch:
it succeeds and removes the backing file rather than failing with the
illegal-state error. -/
theorem fresh_store_closed_cleanable {α : Type} (disk : DiskState α) :
    (new : LokiSecretsMetadataStore α).isClosed = true ∧
    (new : LokiSecretsMetadataStore α).isInitialized = false ∧
    clean (new : LokiSecretsMetadataStore α) disk = (.ok (), ⟨none⟩) :=
  ⟨rfl, rfl, rfl⟩

/-- Witness for C9 at a concrete disk state. -/
theorem fresh_store_closed_cleanable_witness :
    clean (new : LokiSecretsMetadataStore Nat) ⟨some ⟨none⟩⟩ =
      (.ok (), ⟨none⟩) :=
  (fresh_store_closed_cleanable ⟨some ⟨none⟩⟩).2.2

/-- C10: `setSecret` never inspects the tombstone flag: for any existing
record under the name, deleted or not, the bundle is appended, the stored
record keeps its `deleted` flag unchanged (no resurrecting, no clearing),
and the call succeeds — in particular it never fails, so never with
`Conflict`. -/
theorem setSecret_tombstone_indifferent {α : Type}
    (s : LokiSecretsMetadataStore α) (coll : Collection α) (name : String)
    (d : SecretDoc α) (b : α)
    (hc : s.db.secretsColl = some coll)
    (hfind : coll.findOne name = some d) :
    ∃ s',
      setSecret s name b = .ok (s', { d with versions := d.versions ++ [b] }) ∧
      ({ d with versions := d.versions ++ [b] } : SecretDoc α).deleted =
        d.deleted ∧
      ∀ err : StoreError, setSecret s name b ≠ .error err := by
  refine ⟨_, setSecret_found s coll name d b hc hfind, rfl, ?_⟩
  intro err hcontra
  rw [setSecret_found s coll name d b hc hfind] at hcontra
  exact Except.noConfusion hcontra

/-- Witness for C10 at a concrete tombstoned one-record store. -/
theorem setSecret_tombstone_indifferent_witness :
    ∃ s',
      setSecret (storeWith [tDoc]) "t" 7 = .ok (s', ⟨"t", [5, 7], true⟩) ∧
      (⟨"t", [5, 7], true⟩ : SecretDoc Nat).deleted = tDoc.deleted ∧
      ∀ err : StoreError,
        setSecret (storeWith [tDoc]) "t" 7 ≠ .error err :=
  setSecret_tombstone_indifferent (storeWith [tDoc]) tColl "t" tDoc 7
    rfl (by decide)

end Volt
